import Mathlib

/-!
Verification development for the ALSA playback-loop repository
(src/alsa.c, src/alsa2.c).  The recovery-aware loop of src/alsa2.c is
embedded shallowly: the generator `generate_data` and the body of the
`for(;;)` loop in `main` become Lean functions over an explicit loop
state, with all device-session calls (`snd_pcm_state`,
`snd_pcm_avail_update`, `snd_pcm_writei`, `snd_pcm_prepare`,
`snd_pcm_resume`) and the `select` readiness wait supplied by a
per-iteration environment record `DevResponses`.  Each iteration emits a
trace of the device-session calls it performed, in order, so that
scheduling and recovery properties can be stated as trace properties.

Each audio sample written by the C code is
`sin(phase * 2*pi * 440 / rate)`, a pure function of the integer-valued
phase accumulator and the fixed rate; the embedding therefore records,
for each generated sample, the phase value it was computed from.  Two
sample sequences are equal iff their phase sequences are equal.
-/

namespace Alsa

/-- Linux errno value EPIPE (32); `snd_pcm_avail_update` / `snd_pcm_writei`
return `-EPIPE` on an underrun (XRUN). -/
def EPIPE : Int := 32

/-- Linux errno value ESTRPIPE (86); `snd_pcm_writei` returns `-ESTRPIPE`
when the device is suspended. -/
def ESTRPIPE : Int := 86

/-- Linux errno value EINTR (4): `select` failed because a signal was
caught. -/
def EINTR : Nat := 4

/-- One phase increment of `generate_data` (src/alsa2.c lines 17-21):
`phase += 1.0; if (phase >= rate) phase -= rate;`.  The phase starts at 0
and moves in steps of 1, so it is integer-valued and is modelled as a
natural number. -/
def phaseStep (rate phase : Nat) : Nat :=
  if rate ≤ phase + 1 then phase + 1 - rate else phase + 1

/-- `generate_data` from src/alsa2.c (lines 10-23): fills a buffer of `n`
samples, each `sin(phase * 2*pi * 440 / rate)` — a pure function of the
current phase — then advances and wraps the phase.  Returns the list of
phases the samples were computed from together with the final value of
the `static float phase` accumulator. -/
def generate_data (rate : Nat) : Nat → Nat → List Nat × Nat
  | 0, phase => ([], phase)
  | n + 1, phase =>
    let rest := generate_data rate n (phaseStep rate phase)
    (phase :: rest.1, rest.2)

/-- Result of `snd_pcm_state` as inspected by the loop: the code only
distinguishes `SND_PCM_STATE_XRUN`, `SND_PCM_STATE_SUSPENDED`, and
everything else (`running`). -/
inductive PcmState
  | running
  | xrun
  | suspended
deriving DecidableEq, Repr

/-- Readiness bits delivered by `snd_pcm_poll_descriptors_revents` after
`select` returned. -/
structure Revents where
  pollin : Bool
  pollout : Bool
  pollerr : Bool
deriving DecidableEq, Repr

/-- Outcome of the `select` readiness wait: either a set of revents, or
failure with an errno. -/
inductive SelectResult
  | ready (r : Revents)
  | fail (errno : Nat)
deriving DecidableEq, Repr

/-- The environment's answers for one loop iteration: what each
device-session call would return if the loop performs it this time
around.  `writeRes` maps the requested frame count to the
`snd_pcm_writei` return value. -/
structure DevResponses where
  selectRes : SelectResult
  pcmState : PcmState
  availRes : Int
  writeRes : Int → Int
  prepareRes : Int
  resumeRes : Int

/-- The loop-local state of `main` in src/alsa2.c: the staging buffer
(`local_data_buffer`, held as the phases its samples were generated
from), the write offset (`local_data_ptr - local_data_buffer`), the
pending count `frames_to_write_from_local_buffer` (an `ssize_t`, hence
`Int`), and the generator's `static float phase`. -/
structure LoopState where
  bufPhases : List Nat
  offset : Nat
  remaining : Int
  phase : Nat
deriving DecidableEq, Repr

/-- Trace of the observable calls one loop iteration performs, in
order. -/
inductive Ev
  | stateQuery (st : PcmState)
  | availQuery (r : Int)
  | prepareCall (r : Int)
  | resumeCall (r : Int)
  | writeCall (data : List Nat) (req : Int) (r : Int)
  | refillEv (n : Nat)
deriving DecidableEq, Repr

/-- The ways the loop terminates via `errx`, each carrying the
device-reported code it prints. -/
inductive FatalExit
  | selectErr (errno : Nat)
  | prepareErr (r : Int)
  | availErr (r : Int)
  | writeErr (r : Int)
deriving DecidableEq, Repr

/-- Result of one loop iteration: continue with a new state, or the
process exits fatally.  Either way the iteration's event trace is
reported. -/
inductive StepResult
  | next (s : LoopState) (tr : List Ev)
  | fatal (f : FatalExit) (tr : List Ev)
deriving DecidableEq, Repr

/-- Top of the loop body (src/alsa2.c lines 81-86): if the local buffer
is drained, `generate_data` refills it and the cursor is reset to
`(0, capacity)`. -/
def refillIfEmpty (cap rate : Nat) (s : LoopState) : LoopState × List Ev :=
  if s.remaining = 0 then
    let g := generate_data rate cap s.phase
    ({ bufPhases := g.1, offset := 0, remaining := (cap : Int), phase := g.2 },
     [Ev.refillEv cap])
  else (s, [])

/-- The trace of the calls an iteration that reached `snd_pcm_writei`
made up to and including the write: the state check, the space query, and
the write call with the requested slice of the staging buffer
(`local_data_ptr`, `frames_to_write_this_iter`) and the write's result. -/
def wrTrace (d : DevResponses) (s : LoopState) : List Ev :=
  [Ev.stateQuery .running, Ev.availQuery d.availRes,
   Ev.writeCall
     ((s.bufPhases.drop s.offset).take (min d.availRes s.remaining).toNat)
     (min d.availRes s.remaining)
     (d.writeRes (min d.availRes s.remaining))]

/-- The `revents & POLLOUT` branch of src/alsa2.c (lines 131-196): state
check with XRUN / SUSPENDED recovery, `snd_pcm_avail_update` with its own
fault classification, then `n = min(avail, remaining)` and, when `n > 0`,
`snd_pcm_writei` with fault classification of its return and cursor
advance by the accepted count. -/
def on_writable (d : DevResponses) (s : LoopState) : StepResult :=
  if d.pcmState = .xrun then
    if d.prepareRes < 0 then
      .fatal (.prepareErr d.prepareRes)
        [.stateQuery .xrun, .prepareCall d.prepareRes]
    else
      .next s [.stateQuery .xrun, .prepareCall d.prepareRes]
  else if d.pcmState = .suspended then
    if d.resumeRes < 0 ∨ d.resumeRes = 0 then
      if d.prepareRes < 0 then
        .fatal (.prepareErr d.prepareRes)
          [.stateQuery .suspended, .resumeCall d.resumeRes,
           .prepareCall d.prepareRes]
      else
        .next s
          [.stateQuery .suspended, .resumeCall d.resumeRes,
           .prepareCall d.prepareRes]
    else
      .next s [.stateQuery .suspended, .resumeCall d.resumeRes]
  else
    if d.availRes < 0 then
      if d.availRes = -EPIPE then
        if d.prepareRes < 0 then
          .fatal (.prepareErr d.prepareRes)
            [.stateQuery .running, .availQuery d.availRes,
             .prepareCall d.prepareRes]
        else
          .next s
            [.stateQuery .running, .availQuery d.availRes,
             .prepareCall d.prepareRes]
      else
        .fatal (.availErr d.availRes)
          [.stateQuery .running, .availQuery d.availRes]
    else
      -- `frames_to_write_this_iter = min(avail, remaining)`; the local C
      -- variables `frames_to_write_this_iter` and `ret` are written out
      -- at each occurrence below.
      if 0 < min d.availRes s.remaining then
        if d.writeRes (min d.availRes s.remaining) < 0 then
          if d.writeRes (min d.availRes s.remaining) = -EPIPE then
            if d.prepareRes < 0 then
              .fatal (.prepareErr d.prepareRes)
                (wrTrace d s ++ [.prepareCall d.prepareRes])
            else
              .next s (wrTrace d s ++ [.prepareCall d.prepareRes])
          else if d.writeRes (min d.availRes s.remaining) = -ESTRPIPE then
            if d.resumeRes < 0 ∨ d.resumeRes = 0 then
              if d.prepareRes < 0 then
                .fatal (.prepareErr d.prepareRes)
                  (wrTrace d s ++ [.resumeCall d.resumeRes,
                           .prepareCall d.prepareRes])
              else
                .next s
                  (wrTrace d s ++ [.resumeCall d.resumeRes,
                           .prepareCall d.prepareRes])
            else
              .next s (wrTrace d s ++ [.resumeCall d.resumeRes])
          else
            .fatal (.writeErr (d.writeRes (min d.availRes s.remaining)))
              (wrTrace d s)
        else
          .next { s with
                  offset :=
                    s.offset + (d.writeRes (min d.availRes s.remaining)).toNat
                  remaining :=
                    s.remaining - d.writeRes (min d.availRes s.remaining) }
            (wrTrace d s)
      else
        .next s [.stateQuery .running, .availQuery d.availRes]

/-- One full iteration of the `for(;;)` loop in src/alsa2.c: refill
check, `select` (retrying transparently on EINTR, src/alsa2.c lines
103-110), revents translation, and the POLLOUT branch. -/
def step (cap rate : Nat) (d : DevResponses) (s : LoopState) : StepResult :=
  let rf := refillIfEmpty cap rate s
  match d.selectRes with
  | .fail e =>
    if e = EINTR then .next rf.1 rf.2
    else .fatal (.selectErr e) rf.2
  | .ready revents =>
    if revents.pollout then
      match on_writable d rf.1 with
      | .next s2 tr => .next s2 (rf.2 ++ tr)
      | .fatal f tr => .fatal f (rf.2 ++ tr)
    else
      .next rf.1 rf.2

/-- Run the loop through a finite list of per-iteration environments,
concatenating the traces and stopping early on a fatal exit. -/
def run (cap rate : Nat) : List DevResponses → LoopState → StepResult
  | [], s => .next s []
  | d :: ds, s =>
    match step cap rate d s with
    | .next s1 tr =>
      match run cap rate ds s1 with
      | .next s2 tr2 => .next s2 (tr ++ tr2)
      | .fatal f tr2 => .fatal f (tr ++ tr2)
    | .fatal f tr => .fatal f tr

/-- Loop state at entry to the `for(;;)` loop:
`frames_to_write_from_local_buffer = 0`, generator phase 0. -/
def initState : LoopState :=
  { bufPhases := [], offset := 0, remaining := 0, phase := 0 }

/-- The trace an iteration (or run) produced, whether it continued or
exited. -/
def resTrace : StepResult → List Ev
  | .next _ tr => tr
  | .fatal _ tr => tr

/-- Whether the result is a fatal process exit. -/
def isFatal : StepResult → Bool
  | .next _ _ => false
  | .fatal _ _ => true

/-- Frames contributed to the staging buffer by a trace event. -/
def evGenerated : Ev → Nat
  | .refillEv n => n
  | _ => 0

/-- Frames the device accepted in a trace event (a failed write accepted
none). -/
def evWritten : Ev → Nat
  | .writeCall _ _ r => r.toNat
  | _ => 0

/-- Total frames generated over a trace. -/
def generatedFrames (tr : List Ev) : Nat := (tr.map evGenerated).sum

/-- Total frames accepted by the device over a trace. -/
def writtenFrames (tr : List Ev) : Nat := (tr.map evWritten).sum

/-- Whether an event is a `snd_pcm_writei` call. -/
def isWriteEv : Ev → Bool
  | .writeCall _ _ _ => true
  | _ => false

/-- Whether a trace contains any `snd_pcm_writei` call. -/
def hasWrite (tr : List Ev) : Bool := tr.any isWriteEv

/-- The `snd_pcm_writei` calls of a trace, in order. -/
def writeEvents (tr : List Ev) : List Ev := tr.filter isWriteEv

/-- Whether an event is a `snd_pcm_prepare` call. -/
def isPrepareEv : Ev → Bool
  | .prepareCall _ => true
  | _ => false

/-- Number of `snd_pcm_prepare` calls in a trace. -/
def prepareCount (tr : List Ev) : Nat := tr.countP isPrepareEv

/-- A readiness result with only POLLOUT set. -/
def pollOutReady : SelectResult := .ready ⟨false, true, false⟩

/-- Environment for a healthy iteration: POLLOUT fires, the device is
running, reports `a` available frames, and accepts every requested
frame. -/
def healthy (a : Int) : DevResponses :=
  { selectRes := pollOutReady
    pcmState := .running
    availRes := a
    writeRes := fun n => n
    prepareRes := 0
    resumeRes := 1 }

/-! ### Generator lemmas -/

/-- `phaseStep` is exactly increment-then-reduce modulo the rate, as long
as the phase is already below the rate. -/
lemma phaseStep_eq_mod (rate phase : Nat) (h : phase < rate) :
    phaseStep rate phase = (phase + 1) % rate := by
  unfold phaseStep
  split
  · have heq : phase + 1 = rate := by omega
    rw [heq, Nat.mod_self]
    omega
  · rw [Nat.mod_eq_of_lt (by omega)]

/-- Wrapping keeps the phase below the rate. -/
lemma phaseStep_lt (rate phase : Nat) (h0 : 0 < rate) (h : phase < rate) :
    phaseStep rate phase < rate := by
  unfold phaseStep; split <;> omega

/-- The final phase after generating `n` samples from a wrapped phase. -/
lemma generate_data_snd (rate n phase : Nat) (h0 : 0 < rate) (h : phase < rate) :
    (generate_data rate n phase).2 = (phase + n) % rate := by
  induction n generalizing phase with
  | zero => simp [generate_data, Nat.mod_eq_of_lt h]
  | succ k ih =>
    simp only [generate_data]
    rw [ih (phaseStep rate phase) (phaseStep_lt rate phase h0 h),
        phaseStep_eq_mod rate phase h, Nat.mod_add_mod]
    congr 1
    omega

/-- The phases the samples of one `generate_data` call are computed from:
the `i`-th sample uses phase `(phase + i) % rate`. -/
lemma generate_data_fst (rate n phase : Nat) (h0 : 0 < rate) (h : phase < rate) :
    (generate_data rate n phase).1 =
      (List.range n).map (fun i => (phase + i) % rate) := by
  induction n generalizing phase with
  | zero => simp [generate_data]
  | succ k ih =>
    simp only [generate_data]
    rw [ih (phaseStep rate phase) (phaseStep_lt rate phase h0 h),
        List.range_succ_eq_map, List.map_cons, List.map_map]
    congr 1
    · rw [Nat.add_zero, Nat.mod_eq_of_lt h]
    · refine List.map_congr_left fun i _ => ?_
      simp only [Function.comp_apply, phaseStep_eq_mod rate phase h,
        Nat.mod_add_mod]
      congr 1
      omega

/-- Splitting one generation of `n + m` samples into consecutive
generations of `n` and then `m` samples. -/
lemma generate_data_add (rate n m phase : Nat) :
    generate_data rate (n + m) phase =
      ((generate_data rate n phase).1 ++
        (generate_data rate m (generate_data rate n phase).2).1,
       (generate_data rate m (generate_data rate n phase).2).2) := by
  induction n generalizing phase with
  | zero => simp [generate_data]
  | succ k ih =>
    have hadd : k + 1 + m = (k + m) + 1 := by omega
    rw [hadd]
    simp only [generate_data, ih]
    simp

/-! ### Trace observer lemmas -/

lemma writtenFrames_append (a b : List Ev) :
    writtenFrames (a ++ b) = writtenFrames a + writtenFrames b := by
  simp [writtenFrames]

lemma generatedFrames_append (a b : List Ev) :
    generatedFrames (a ++ b) = generatedFrames a + generatedFrames b := by
  simp [generatedFrames]

lemma hasWrite_append (a b : List Ev) :
    hasWrite (a ++ b) = (hasWrite a || hasWrite b) := by
  simp [hasWrite]

lemma writeEvents_append (a b : List Ev) :
    writeEvents (a ++ b) = writeEvents a ++ writeEvents b := by
  simp [writeEvents]

lemma prepareCount_append (a b : List Ev) :
    prepareCount (a ++ b) = prepareCount a + prepareCount b := by
  simp [prepareCount]

/-- A non-drained buffer is left alone by the refill check. -/
lemma refill_not_drained (cap rate : Nat) {s : LoopState} (h : s.remaining ≠ 0) :
    refillIfEmpty cap rate s = (s, []) := by
  simp [refillIfEmpty, h]

/-- State component of `refill_not_drained`. -/
lemma refill_not_drained_fst (cap rate : Nat) {s : LoopState}
    (h : s.remaining ≠ 0) : (refillIfEmpty cap rate s).1 = s := by
  rw [refill_not_drained cap rate h]

/-- Trace component of `refill_not_drained`. -/
lemma refill_not_drained_snd (cap rate : Nat) {s : LoopState}
    (h : s.remaining ≠ 0) : (refillIfEmpty cap rate s).2 = [] := by
  rw [refill_not_drained cap rate h]

/-- The refill check emits no device-session calls: at most a refill
event. -/
lemma refill_trace_calls (cap rate : Nat) (s : LoopState) :
    writtenFrames (refillIfEmpty cap rate s).2 = 0 ∧
    hasWrite (refillIfEmpty cap rate s).2 = false ∧
    writeEvents (refillIfEmpty cap rate s).2 = [] ∧
    prepareCount (refillIfEmpty cap rate s).2 = 0 := by
  unfold refillIfEmpty
  split <;>
    simp [writtenFrames, hasWrite, writeEvents, prepareCount, evWritten,
      isWriteEv, isPrepareEv]

/-- The refill check changes the phase only through `generate_data`. -/
lemma refill_phase (cap rate : Nat) (s : LoopState) :
    (refillIfEmpty cap rate s).1.phase =
      if s.remaining = 0 then (generate_data rate cap s.phase).2
      else s.phase := by
  unfold refillIfEmpty
  split <;> simp [*]

/-- Frame accounting of the refill check. -/
lemma refill_frames (cap rate : Nat) (s : LoopState) (h : 0 ≤ s.remaining) :
    0 ≤ (refillIfEmpty cap rate s).1.remaining ∧
    (generatedFrames (refillIfEmpty cap rate s).2 : Int) + s.remaining =
      (refillIfEmpty cap rate s).1.remaining := by
  unfold refillIfEmpty
  split <;> simp_all [generatedFrames, evGenerated]

/-! ### Branch characterizations of the POLLOUT body -/

/-- XRUN reported by the state check, prepare succeeds (src/alsa2.c lines
135-140). -/
lemma ow_xrun {d : DevResponses} (s : LoopState)
    (hst : d.pcmState = .xrun) (hp : 0 ≤ d.prepareRes) :
    on_writable d s = .next s [.stateQuery .xrun, .prepareCall d.prepareRes] := by
  unfold on_writable
  simp only [hst]
  simp [not_lt.mpr hp]

/-- Suspended reported by the state check, resume fails or is not
possible, prepare succeeds (src/alsa2.c lines 141-149). -/
lemma ow_susp_prepare {d : DevResponses} (s : LoopState)
    (hst : d.pcmState = .suspended) (hres : d.resumeRes ≤ 0)
    (hp : 0 ≤ d.prepareRes) :
    on_writable d s =
      .next s [.stateQuery .suspended, .resumeCall d.resumeRes,
               .prepareCall d.prepareRes] := by
  unfold on_writable
  simp only [hst]
  have : d.resumeRes < 0 ∨ d.resumeRes = 0 := by omega
  simp [this, not_lt.mpr hp]

/-- Suspended reported by the state check, resume succeeds. -/
lemma ow_susp_resume {d : DevResponses} (s : LoopState)
    (hst : d.pcmState = .suspended) (hres : 0 < d.resumeRes) :
    on_writable d s =
      .next s [.stateQuery .suspended, .resumeCall d.resumeRes] := by
  unfold on_writable
  simp only [hst]
  have : ¬(d.resumeRes < 0 ∨ d.resumeRes = 0) := by omega
  simp [this]

/-- `snd_pcm_avail_update` returns an unclassified negative code: fatal
exit reporting it (src/alsa2.c lines 159-161). -/
lemma ow_avail_fatal {d : DevResponses} (s : LoopState)
    (hst : d.pcmState = .running) (ha : d.availRes < 0)
    (hne : d.availRes ≠ -EPIPE) :
    on_writable d s =
      .fatal (.availErr d.availRes)
        [.stateQuery .running, .availQuery d.availRes] := by
  unfold on_writable
  simp only [hst]
  simp [ha, hne]

/-- `snd_pcm_avail_update` reports an underrun (`-EPIPE`), prepare
succeeds (src/alsa2.c lines 153-158). -/
lemma ow_avail_epipe {d : DevResponses} (s : LoopState)
    (hst : d.pcmState = .running) (ha : d.availRes = -EPIPE)
    (hp : 0 ≤ d.prepareRes) :
    on_writable d s =
      .next s [.stateQuery .running, .availQuery d.availRes,
               .prepareCall d.prepareRes] := by
  unfold on_writable
  simp only [hst]
  have hlt : d.availRes < 0 := by rw [ha]; decide
  simp [hlt, ha, not_lt.mpr hp, EPIPE]

/-- Space query succeeded but `min(avail, remaining)` is zero: the
iteration ends with no write (src/alsa2.c lines 164-170, 195). -/
lemma ow_no_write {d : DevResponses} (s : LoopState)
    (hst : d.pcmState = .running) (ha : 0 ≤ d.availRes)
    (hn : ¬ 0 < min d.availRes s.remaining) :
    on_writable d s =
      .next s [.stateQuery .running, .availQuery d.availRes] := by
  unfold on_writable
  simp only [hst]
  simp [not_lt.mpr ha, hn]

/-- Successful (possibly short) write: the cursor advances by exactly the
accepted count (src/alsa2.c lines 170-171, 193-194). -/
lemma ow_write_ok {d : DevResponses} (s : LoopState)
    (hst : d.pcmState = .running) (ha : 0 ≤ d.availRes)
    (hn : 0 < min d.availRes s.remaining)
    (hr : 0 ≤ d.writeRes (min d.availRes s.remaining)) :
    on_writable d s =
      .next { s with
              offset := s.offset + (d.writeRes (min d.availRes s.remaining)).toNat
              remaining := s.remaining - d.writeRes (min d.availRes s.remaining) }
        [.stateQuery .running, .availQuery d.availRes,
         .writeCall ((s.bufPhases.drop s.offset).take (min d.availRes s.remaining).toNat)
           (min d.availRes s.remaining)
           (d.writeRes (min d.availRes s.remaining))] := by
  unfold on_writable
  simp only [hst]
  simp [not_lt.mpr ha, hn, not_lt.mpr hr, wrTrace]

/-- `snd_pcm_writei` returns an unclassified negative code: fatal exit
reporting it (src/alsa2.c lines 187-189). -/
lemma ow_write_fatal {d : DevResponses} (s : LoopState)
    (hst : d.pcmState = .running) (ha : 0 ≤ d.availRes)
    (hn : 0 < min d.availRes s.remaining)
    (hr : d.writeRes (min d.availRes s.remaining) < 0)
    (h1 : d.writeRes (min d.availRes s.remaining) ≠ -EPIPE)
    (h2 : d.writeRes (min d.availRes s.remaining) ≠ -ESTRPIPE) :
    on_writable d s =
      .fatal (.writeErr (d.writeRes (min d.availRes s.remaining)))
        [.stateQuery .running, .availQuery d.availRes,
         .writeCall ((s.bufPhases.drop s.offset).take (min d.availRes s.remaining).toNat)
           (min d.availRes s.remaining)
           (d.writeRes (min d.availRes s.remaining))] := by
  unfold on_writable
  simp only [hst]
  simp [not_lt.mpr ha, hn, hr, h1, h2, wrTrace]

/-- `snd_pcm_writei` reports an underrun (`-EPIPE`), prepare succeeds
(src/alsa2.c lines 174-178). -/
lemma ow_write_epipe {d : DevResponses} (s : LoopState)
    (hst : d.pcmState = .running) (ha : 0 ≤ d.availRes)
    (hn : 0 < min d.availRes s.remaining)
    (hr : d.writeRes (min d.availRes s.remaining) = -EPIPE)
    (hp : 0 ≤ d.prepareRes) :
    on_writable d s =
      .next s
        [.stateQuery .running, .availQuery d.availRes,
         .writeCall ((s.bufPhases.drop s.offset).take (min d.availRes s.remaining).toNat)
           (min d.availRes s.remaining)
           (d.writeRes (min d.availRes s.remaining)),
         .prepareCall d.prepareRes] := by
  unfold on_writable
  simp only [hst]
  have hlt : d.writeRes (min d.availRes s.remaining) < 0 := by rw [hr]; decide
  simp [not_lt.mpr ha, hn, hlt, hr, not_lt.mpr hp, EPIPE, wrTrace]

/-- `snd_pcm_writei` reports suspension (`-ESTRPIPE`), resume fails or is
not possible, prepare succeeds (src/alsa2.c lines 179-186). -/
lemma ow_write_estrpipe_prepare {d : DevResponses} (s : LoopState)
    (hst : d.pcmState = .running) (ha : 0 ≤ d.availRes)
    (hn : 0 < min d.availRes s.remaining)
    (hr : d.writeRes (min d.availRes s.remaining) = -ESTRPIPE)
    (hres : d.resumeRes ≤ 0) (hp : 0 ≤ d.prepareRes) :
    on_writable d s =
      .next s
        [.stateQuery .running, .availQuery d.availRes,
         .writeCall ((s.bufPhases.drop s.offset).take (min d.availRes s.remaining).toNat)
           (min d.availRes s.remaining)
           (d.writeRes (min d.availRes s.remaining)),
         .resumeCall d.resumeRes, .prepareCall d.prepareRes] := by
  unfold on_writable
  simp only [hst]
  have hlt : d.writeRes (min d.availRes s.remaining) < 0 := by rw [hr]; decide
  have hor : d.resumeRes < 0 ∨ d.resumeRes = 0 := by omega
  have hne : d.writeRes (min d.availRes s.remaining) ≠ -EPIPE := by
    rw [hr]; decide
  simp [not_lt.mpr ha, hn, hlt, hr, hne, hor, not_lt.mpr hp, EPIPE, ESTRPIPE, wrTrace]

/-- `snd_pcm_writei` reports suspension (`-ESTRPIPE`), resume succeeds. -/
lemma ow_write_estrpipe_resume {d : DevResponses} (s : LoopState)
    (hst : d.pcmState = .running) (ha : 0 ≤ d.availRes)
    (hn : 0 < min d.availRes s.remaining)
    (hr : d.writeRes (min d.availRes s.remaining) = -ESTRPIPE)
    (hres : 0 < d.resumeRes) :
    on_writable d s =
      .next s
        [.stateQuery .running, .availQuery d.availRes,
         .writeCall ((s.bufPhases.drop s.offset).take (min d.availRes s.remaining).toNat)
           (min d.availRes s.remaining)
           (d.writeRes (min d.availRes s.remaining)),
         .resumeCall d.resumeRes] := by
  unfold on_writable
  simp only [hst]
  have hlt : d.writeRes (min d.availRes s.remaining) < 0 := by rw [hr]; decide
  have hor : ¬(d.resumeRes < 0 ∨ d.resumeRes = 0) := by omega
  have hne : d.writeRes (min d.availRes s.remaining) ≠ -EPIPE := by
    rw [hr]; decide
  simp [not_lt.mpr ha, hn, hlt, hr, hne, hor, EPIPE, ESTRPIPE, wrTrace]

/-! ### Step-level composition lemmas -/

/-- Under POLLOUT readiness, an iteration is the refill check followed by
the POLLOUT body. -/
lemma step_pollout {cap rate : Nat} {d : DevResponses} {s : LoopState}
    {revents : Revents}
    (hsel : d.selectRes = .ready revents) (hpo : revents.pollout = true) :
    step cap rate d s =
      match on_writable d (refillIfEmpty cap rate s).1 with
      | .next s2 tr => .next s2 ((refillIfEmpty cap rate s).2 ++ tr)
      | .fatal f tr => .fatal f ((refillIfEmpty cap rate s).2 ++ tr) := by
  unfold step
  rw [hsel]
  simp [hpo]

/-- Without POLLOUT readiness, an iteration is just the refill check. -/
lemma step_no_pollout {cap rate : Nat} {d : DevResponses} {s : LoopState}
    {revents : Revents}
    (hsel : d.selectRes = .ready revents) (hpo : revents.pollout = false) :
    step cap rate d s =
      .next (refillIfEmpty cap rate s).1 (refillIfEmpty cap rate s).2 := by
  unfold step
  rw [hsel]
  simp [hpo]

/-- A signal-interrupted `select` is retried: the iteration continues with
the loop state intact. -/
lemma step_eintr {cap rate : Nat} {d : DevResponses} {s : LoopState}
    (hsel : d.selectRes = .fail EINTR) :
    step cap rate d s =
      .next (refillIfEmpty cap rate s).1 (refillIfEmpty cap rate s).2 := by
  unfold step
  rw [hsel]
  simp

/-! ### Frame accounting invariants -/

/-- `select` failed with an errno other than EINTR: fatal exit. -/
lemma step_select_fatal {cap rate : Nat} {d : DevResponses} {s : LoopState}
    {e : Nat} (hsel : d.selectRes = .fail e) (he : e ≠ EINTR) :
    step cap rate d s =
      .fatal (.selectErr e) (refillIfEmpty cap rate s).2 := by
  unfold step
  rw [hsel]
  simp [he]

/-- Unfolding one iteration of `run` whose step continued. -/
lemma run_cons_next {cap rate : Nat} {d : DevResponses} {ds : List DevResponses}
    {s s1 : LoopState} {tr1 : List Ev}
    (hstep : step cap rate d s = .next s1 tr1) :
    run cap rate (d :: ds) s =
      match run cap rate ds s1 with
      | .next s2 tr2 => .next s2 (tr1 ++ tr2)
      | .fatal f tr2 => .fatal f (tr1 ++ tr2) := by
  simp only [run, hstep]

/-- Unfolding one iteration of `run` whose step exited fatally. -/
lemma run_cons_fatal {cap rate : Nat} {d : DevResponses} {ds : List DevResponses}
    {s : LoopState} {f : FatalExit} {tr1 : List Ev}
    (hstep : step cap rate d s = .fatal f tr1) :
    run cap rate (d :: ds) s = .fatal f tr1 := by
  simp only [run, hstep]

/-- Frame accounting of the POLLOUT body when the loop continues: no
frames are generated, the cursor never goes negative, and the device
accepts exactly the frames the cursor was advanced by. -/
lemma on_writable_next_frames {d : DevResponses} {s s' : LoopState}
    {tr : List Ev}
    (hw : ∀ n : Int, d.writeRes n ≤ n) (hrem : 0 ≤ s.remaining)
    (h : on_writable d s = .next s' tr) :
    0 ≤ s'.remaining ∧
      (writtenFrames tr : Int) + s'.remaining = s.remaining ∧
      generatedFrames tr = 0 := by
  have hwn := hw (min d.availRes s.remaining)
  have hmin : min d.availRes s.remaining ≤ s.remaining := min_le_right _ _
  unfold on_writable at h
  repeat' split at h
  all_goals (try cases h)
  all_goals
    simp only [writtenFrames, generatedFrames, evWritten, evGenerated, wrTrace,
      List.map_cons, List.map_nil, List.sum_cons, List.sum_nil,
      List.map_append, List.sum_append] at *
  all_goals omega

/-- Frame accounting of the POLLOUT body on a fatal exit: nothing was
generated and the device accepted nothing. -/
lemma on_writable_fatal_frames {d : DevResponses} {s : LoopState}
    {f : FatalExit} {tr : List Ev}
    (h : on_writable d s = .fatal f tr) :
    writtenFrames tr = 0 ∧ generatedFrames tr = 0 := by
  unfold on_writable at h
  repeat' split at h
  all_goals (try cases h)
  all_goals
    simp only [writtenFrames, generatedFrames, evWritten, evGenerated, wrTrace,
      List.map_cons, List.map_nil, List.sum_cons, List.sum_nil,
      List.map_append, List.sum_append] at *
  all_goals omega

/-- Frame accounting of one full iteration that continues. -/
lemma step_next_frames {cap rate : Nat} {d : DevResponses} {s s' : LoopState}
    {tr : List Ev}
    (hw : ∀ n : Int, d.writeRes n ≤ n) (hrem : 0 ≤ s.remaining)
    (h : step cap rate d s = .next s' tr) :
    0 ≤ s'.remaining ∧
      (writtenFrames tr : Int) + s'.remaining =
        generatedFrames tr + s.remaining := by
  have hrf := refill_frames cap rate s hrem
  have hrt := refill_trace_calls cap rate s
  rcases hsel : d.selectRes with revents | e
  · cases hpo : revents.pollout
    · rw [step_no_pollout hsel hpo] at h
      cases h
      refine ⟨hrf.1, ?_⟩
      rw [hrt.1]
      omega
    · rw [step_pollout hsel hpo] at h
      rcases how : on_writable d (refillIfEmpty cap rate s).1 with
        ⟨s2, tr2⟩ | ⟨f2, tr2⟩ <;> simp only [how] at h <;> cases h
      have h2 := on_writable_next_frames hw hrf.1 how
      refine ⟨h2.1, ?_⟩
      rw [writtenFrames_append, generatedFrames_append]
      push_cast
      omega
  · by_cases he : e = EINTR
    · subst he
      rw [step_eintr hsel] at h
      cases h
      refine ⟨hrf.1, ?_⟩
      rw [hrt.1]
      omega
    · rw [step_select_fatal hsel he] at h
      cases h

/-- Frame accounting of one full iteration that exits fatally. -/
lemma step_fatal_frames {cap rate : Nat} {d : DevResponses} {s : LoopState}
    {f : FatalExit} {tr : List Ev}
    (hrem : 0 ≤ s.remaining)
    (h : step cap rate d s = .fatal f tr) :
    (writtenFrames tr : Int) ≤ generatedFrames tr + s.remaining := by
  have hrt := refill_trace_calls cap rate s
  rcases hsel : d.selectRes with revents | e
  · cases hpo : revents.pollout
    · rw [step_no_pollout hsel hpo] at h
      cases h
    · rw [step_pollout hsel hpo] at h
      rcases how : on_writable d (refillIfEmpty cap rate s).1 with
        ⟨s2, tr2⟩ | ⟨f2, tr2⟩ <;> simp only [how] at h <;> cases h
      have h2 := on_writable_fatal_frames how
      rw [writtenFrames_append, generatedFrames_append, hrt.1, h2.1]
      push_cast
      omega
  · by_cases he : e = EINTR
    · subst he
      rw [step_eintr hsel] at h
      cases h
    · rw [step_select_fatal hsel he] at h
      cases h
      rw [hrt.1]
      push_cast
      omega

/-- Frame accounting over a whole run that has not exited. -/
lemma run_next_frames (cap rate : Nat) (ds : List DevResponses) :
    ∀ s s' : LoopState, ∀ tr : List Ev,
      (∀ d ∈ ds, ∀ n : Int, d.writeRes n ≤ n) → 0 ≤ s.remaining →
      run cap rate ds s = .next s' tr →
      0 ≤ s'.remaining ∧
        (writtenFrames tr : Int) + s'.remaining =
          generatedFrames tr + s.remaining := by
  induction ds with
  | nil =>
    intro s s' tr _ hrem h
    simp only [run, StepResult.next.injEq] at h
    obtain ⟨rfl, rfl⟩ := h
    simpa [writtenFrames, generatedFrames] using hrem
  | cons d ds ih =>
    intro s s' tr hw hrem h
    rcases hstep : step cap rate d s with ⟨s1, tr1⟩ | ⟨f1, tr1⟩
    · rw [run_cons_next hstep] at h
      rcases hrun : run cap rate ds s1 with ⟨s2, tr2⟩ | ⟨f2, tr2⟩ <;>
        simp only [hrun] at h <;> cases h
      have h1 := step_next_frames (hw d (by simp)) hrem hstep
      have h2 := ih s1 _ tr2 (fun d' hd => hw d' (by simp [hd])) h1.1 hrun
      refine ⟨h2.1, ?_⟩
      rw [writtenFrames_append, generatedFrames_append]
      push_cast
      omega
    · rw [run_cons_fatal hstep] at h
      cases h

/-- Frame accounting over a run that ended in a fatal exit. -/
lemma run_fatal_frames (cap rate : Nat) (ds : List DevResponses) :
    ∀ s : LoopState, ∀ f : FatalExit, ∀ tr : List Ev,
      (∀ d ∈ ds, ∀ n : Int, d.writeRes n ≤ n) → 0 ≤ s.remaining →
      run cap rate ds s = .fatal f tr →
      (writtenFrames tr : Int) ≤ generatedFrames tr + s.remaining := by
  induction ds with
  | nil =>
    intro s f tr _ _ h
    simp [run] at h
  | cons d ds ih =>
    intro s f tr hw hrem h
    rcases hstep : step cap rate d s with ⟨s1, tr1⟩ | ⟨f1, tr1⟩
    · rw [run_cons_next hstep] at h
      rcases hrun : run cap rate ds s1 with ⟨s2, tr2⟩ | ⟨f2, tr2⟩ <;>
        simp only [hrun] at h <;> cases h
      have h1 := step_next_frames (hw d (by simp)) hrem hstep
      have h2 := ih s1 _ tr2 (fun d' hd => hw d' (by simp [hd])) h1.1 hrun
      rw [writtenFrames_append, generatedFrames_append]
      push_cast
      omega
    · rw [run_cons_fatal hstep] at h
      cases h
      exact step_fatal_frames hrem hstep

/-! ### Phase ownership lemmas -/

/-- The POLLOUT body never touches the generator's phase. -/
lemma on_writable_next_phase {d : DevResponses} {s s' : LoopState}
    {tr : List Ev} (h : on_writable d s = .next s' tr) :
    s'.phase = s.phase := by
  unfold on_writable at h
  repeat' split at h
  all_goals (try cases h)
  all_goals rfl

/-- Across one iteration the phase changes exactly when the refill runs,
and then exactly to the final phase of the generator call. -/
lemma step_next_phase {cap rate : Nat} {d : DevResponses} {s s' : LoopState}
    {tr : List Ev} (h : step cap rate d s = .next s' tr) :
    s'.phase =
      if s.remaining = 0 then (generate_data rate cap s.phase).2
      else s.phase := by
  rw [← refill_phase cap rate s]
  rcases hsel : d.selectRes with revents | e
  · cases hpo : revents.pollout
    · rw [step_no_pollout hsel hpo] at h
      cases h
      rfl
    · rw [step_pollout hsel hpo] at h
      rcases how : on_writable d (refillIfEmpty cap rate s).1 with
        ⟨s2, tr2⟩ | ⟨f2, tr2⟩ <;> simp only [how] at h <;> cases h
      exact on_writable_next_phase how
  · by_cases he : e = EINTR
    · subst he
      rw [step_eintr hsel] at h
      cases h
      rfl
    · rw [step_select_fatal hsel he] at h
      cases h

/-! ### Concrete environments for witnesses and counterexamples -/

/-- The remaining count of a result that continued; 0 on a fatal exit. -/
def resRemaining : StepResult → Int
  | .next s _ => s.remaining
  | .fatal _ _ => 0

/-- A staging buffer of four freshly generated frames (phases 0..3) with
the cursor at the start. -/
def fullBuf : LoopState :=
  { bufPhases := [0, 1, 2, 3], offset := 0, remaining := 4, phase := 0 }

/-- Environment whose write accepts one frame of any request (a short
write when more was requested). -/
def shortDev : DevResponses :=
  { selectRes := pollOutReady
    pcmState := .running
    availRes := 3
    writeRes := fun _ => 1
    prepareRes := 0
    resumeRes := 1 }

/-- Environment whose space query reports `-ESTRPIPE` (suspension). -/
def availSuspDev : DevResponses :=
  { selectRes := pollOutReady
    pcmState := .running
    availRes := -ESTRPIPE
    writeRes := fun n => n
    prepareRes := 0
    resumeRes := 1 }

/-- Environment whose write reports `-ESTRPIPE`, resume succeeding. -/
def writeSuspDev : DevResponses :=
  { selectRes := pollOutReady
    pcmState := .running
    availRes := 4
    writeRes := fun _ => -ESTRPIPE
    prepareRes := 0
    resumeRes := 1 }

/-- Environment in the SUSPENDED state, resume not possible (returns 0),
prepare succeeding. -/
def suspDev : DevResponses :=
  { selectRes := pollOutReady
    pcmState := .suspended
    availRes := 4
    writeRes := fun n => n
    prepareRes := 0
    resumeRes := 0 }

/-- Environment whose space query reports an underrun (`-EPIPE`). -/
def availXrunDev : DevResponses :=
  { selectRes := pollOutReady
    pcmState := .running
    availRes := -EPIPE
    writeRes := fun n => n
    prepareRes := 0
    resumeRes := 1 }

/-- Environment whose write fails with the unclassified code `-EIO`
(-5). -/
def badWriteDev : DevResponses :=
  { selectRes := pollOutReady
    pcmState := .running
    availRes := 4
    writeRes := fun _ => -5
    prepareRes := 0
    resumeRes := 1 }

/-- Environment whose readiness result has no events set. -/
def idleDev : DevResponses :=
  { selectRes := .ready ⟨false, false, false⟩
    pcmState := .running
    availRes := 0
    writeRes := fun n => n
    prepareRes := 0
    resumeRes := 1 }

/-- Environment whose readiness wait was interrupted by a signal. -/
def eintrDev : DevResponses :=
  { selectRes := .fail EINTR
    pcmState := .running
    availRes := 0
    writeRes := fun n => n
    prepareRes := 0
    resumeRes := 1 }

/-! ### Claim theorems -/

/-- C9: generation is phase-continuous across block boundaries: producing
`n` samples and then another `n` samples from the resulting phase yields
exactly the sample (phase) sequence of a single `2n`-sample generation
from the same starting phase — no jump or repeated sample at the
boundary. -/
theorem refill_phase_continuity (rate phase n : Nat) :
    (generate_data rate n phase).1 ++
      (generate_data rate n (generate_data rate n phase).2).1 =
      (generate_data rate (2 * n) phase).1 := by
  rw [two_mul, generate_data_add]

/-- C8: the generator's phase accumulator advances by exactly one per
generated sample and is kept wrapped modulo the sample rate — the `i`-th
sample of a call starting at `phase` uses `(phase + i) % rate`, the final
accumulator is `(phase + n) % rate` and stays below the rate — and across
any continuing loop iteration the phase changes only when the refill runs
the generator (then exactly to the generator's final phase); no recovery,
write, or wait path modifies it. -/
theorem phase_increment_wrap_ownership (rate n phase cap : Nat)
    (d : DevResponses) (s s' : LoopState) (tr : List Ev)
    (h0 : 0 < rate) (h : phase < rate)
    (hstep : step cap rate d s = .next s' tr) :
    (generate_data rate n phase).1 =
        (List.range n).map (fun i => (phase + i) % rate) ∧
      (generate_data rate n phase).2 = (phase + n) % rate ∧
      (generate_data rate n phase).2 < rate ∧
      s'.phase =
        (if s.remaining = 0 then (generate_data rate cap s.phase).2
         else s.phase) := by
  refine ⟨generate_data_fst rate n phase h0 h,
    generate_data_snd rate n phase h0 h, ?_, step_next_phase hstep⟩
  rw [generate_data_snd rate n phase h0 h]
  exact Nat.mod_lt _ h0

/-- C8 witness: concrete instance at rate 4, starting phase 3, six
samples, and an iteration of the loop on a full buffer. -/
theorem phase_increment_wrap_ownership_w :
    (generate_data 4 6 3).1 =
        (List.range 6).map (fun i => (3 + i) % 4) ∧
      (generate_data 4 6 3).2 = (3 + 6) % 4 ∧
      (generate_data 4 6 3).2 < 4 ∧
      fullBuf.phase =
        (if fullBuf.remaining = 0 then (generate_data 4 4 fullBuf.phase).2
         else fullBuf.phase) :=
  phase_increment_wrap_ownership 4 6 3 4 idleDev fullBuf fullBuf []
    (by decide) (by decide) rfl

/-- C6: for every sequence of device responses in which each successful
write accepts at most the requested frame count, the total frames the
device accepted never exceed the total frames generated, and the pending
remaining count is never negative (every prefix of a device-response
sequence is itself such a sequence, so this holds at every iteration). -/
theorem written_le_generated (cap rate : Nat) (ds : List DevResponses)
    (hw : ∀ d ∈ ds, ∀ n : Int, d.writeRes n ≤ n) :
    writtenFrames (resTrace (run cap rate ds initState)) ≤
      generatedFrames (resTrace (run cap rate ds initState)) ∧
    0 ≤ resRemaining (run cap rate ds initState) := by
  have h0 : (0 : Int) ≤ initState.remaining := le_refl 0
  have hi : initState.remaining = 0 := rfl
  rcases hres : run cap rate ds initState with ⟨s', tr⟩ | ⟨f, tr⟩
  · have h := run_next_frames cap rate ds initState s' tr hw h0 hres
    rw [hi] at h
    refine ⟨?_, ?_⟩
    · simp only [resTrace]
      omega
    · simpa only [resRemaining] using h.1
  · have h := run_fatal_frames cap rate ds initState f tr hw h0 hres
    rw [hi] at h
    refine ⟨?_, ?_⟩
    · simp only [resTrace]
      omega
    · simp [resRemaining]

/-- C6 witness: a concrete healthy run. -/
theorem written_le_generated_w :
    writtenFrames (resTrace (run 4 4 [healthy 2] initState)) ≤
      generatedFrames (resTrace (run 4 4 [healthy 2] initState)) ∧
    0 ≤ resRemaining (run 4 4 [healthy 2] initState) :=
  written_le_generated 4 4 [healthy 2]
    (by
      intro d hd n
      simp only [List.mem_singleton] at hd
      subst hd
      exact le_refl n)

/-- C7: a `select` failure with errno EINTR is retried transparently: the
iteration simply continues with the loop state intact (apart from the
start-of-iteration refill), and it is never surfaced — in particular the
result is never a fatal exit. -/
theorem eintr_wait_retried (cap rate : Nat) (d : DevResponses)
    (s : LoopState) (hsel : d.selectRes = .fail EINTR) :
    step cap rate d s =
      .next (refillIfEmpty cap rate s).1 (refillIfEmpty cap rate s).2 ∧
    isFatal (step cap rate d s) = false ∧
    (s.remaining ≠ 0 → step cap rate d s = .next s []) := by
  refine ⟨step_eintr hsel, ?_, fun hne => ?_⟩
  · rw [step_eintr hsel]
    rfl
  · rw [step_eintr hsel, refill_not_drained_fst cap rate hne,
      refill_not_drained_snd cap rate hne]

/-- C2: when `snd_pcm_writei` accepts `r ≥ 0` frames of a request of
`min(avail, remaining)` frames — in particular on a short write, where
`r` is less than requested — the pending cursor advances by exactly the
accepted count `r`: the data pointer moves `r` frames forward and the
remaining count drops by `r`, so the next iteration's write request
starts at the first unwritten offset of the staging buffer. -/
theorem short_write_advances_by_accepted (cap rate : Nat)
    (d : DevResponses) (s : LoopState) (revents : Revents) (r : Int)
    (hsel : d.selectRes = .ready revents) (hpo : revents.pollout = true)
    (hst : d.pcmState = .running) (ha : 0 ≤ d.availRes)
    (hn : 0 < min d.availRes s.remaining)
    (hr : d.writeRes (min d.availRes s.remaining) = r) (hr0 : 0 ≤ r) :
    step cap rate d s =
      .next { s with offset := s.offset + r.toNat,
                     remaining := s.remaining - r }
        [.stateQuery .running, .availQuery d.availRes,
         .writeCall
           ((s.bufPhases.drop s.offset).take
             (min d.availRes s.remaining).toNat)
           (min d.availRes s.remaining) r] := by
  subst hr
  have hrem : s.remaining ≠ 0 := by
    have := min_le_right d.availRes s.remaining
    omega
  rw [step_pollout hsel hpo, refill_not_drained_fst cap rate hrem,
    refill_not_drained_snd cap rate hrem, ow_write_ok s hst ha hn hr0]
  rfl

/-- C2 witness: the device accepts one frame of a three-frame request;
the cursor moves from offset 0 to offset 1 with three frames left. -/
theorem short_write_advances_by_accepted_w :
    step 4 4 shortDev fullBuf =
      .next { bufPhases := [0, 1, 2, 3], offset := 1, remaining := 3,
              phase := 0 }
        [.stateQuery .running, .availQuery 3, .writeCall [0, 1, 2] 3 1] :=
  short_write_advances_by_accepted 4 4 shortDev fullBuf
    ⟨false, true, false⟩ 1 rfl rfl rfl (by decide) (by decide) rfl
    (by decide)

/-- C4: when the Suspended fault is classified and `snd_pcm_resume`
reports "not possible" (returns 0), the loop calls `snd_pcm_prepare`
immediately after the resume, within the same iteration, with no write
between the classification and the prepare.  When the suspension is
classified by the state check, the iteration makes no write call at all;
when it is classified by the write call's own `-ESTRPIPE` return, the
only write call is the faulting one, from which the device accepted no
frames.  Either way the iteration continues with the cursor untouched, so
the next readiness signal re-drives the writable path. -/
theorem suspended_resume_prepare_fallback (cap rate : Nat)
    (d : DevResponses) (s : LoopState) (revents : Revents)
    (hsel : d.selectRes = .ready revents) (hpo : revents.pollout = true)
    (hres : d.resumeRes = 0) (hprep : 0 ≤ d.prepareRes) :
    (d.pcmState = .suspended →
      step cap rate d s =
        .next (refillIfEmpty cap rate s).1
          ((refillIfEmpty cap rate s).2 ++
            [.stateQuery .suspended, .resumeCall 0,
             .prepareCall d.prepareRes]) ∧
      hasWrite (resTrace (step cap rate d s)) = false) ∧
    (d.pcmState = .running → 0 ≤ d.availRes → s.remaining ≠ 0 →
      0 < min d.availRes s.remaining →
      d.writeRes (min d.availRes s.remaining) = -ESTRPIPE →
      step cap rate d s =
        .next s
          (wrTrace d s ++ [.resumeCall 0, .prepareCall d.prepareRes]) ∧
      writtenFrames (resTrace (step cap rate d s)) = 0) := by
  constructor
  · intro hst
    have heq : step cap rate d s =
        .next (refillIfEmpty cap rate s).1
          ((refillIfEmpty cap rate s).2 ++
            [.stateQuery .suspended, .resumeCall 0,
             .prepareCall d.prepareRes]) := by
      rw [step_pollout hsel hpo,
        ow_susp_prepare (refillIfEmpty cap rate s).1 hst (by omega) hprep,
        hres]
    refine ⟨heq, ?_⟩
    rw [heq]
    simp only [resTrace, hasWrite_append]
    rw [(refill_trace_calls cap rate s).2.1]
    rfl
  · intro hst ha hrem hn hwr
    have heq : step cap rate d s =
        .next s
          (wrTrace d s ++ [.resumeCall 0, .prepareCall d.prepareRes]) := by
      rw [step_pollout hsel hpo, refill_not_drained_fst cap rate hrem,
        refill_not_drained_snd cap rate hrem,
        ow_write_estrpipe_prepare s hst ha hn hwr (by omega) hprep, hres]
      rfl
    refine ⟨heq, ?_⟩
    rw [heq]
    simp only [resTrace, writtenFrames_append, writtenFrames, wrTrace,
      evWritten, List.map_cons, List.map_nil, List.sum_cons, List.sum_nil,
      hwr]
    rfl

/-- C4 witness: suspended state check, resume returns 0, prepare
succeeds: resume then prepare in one iteration, no write, state
intact. -/
theorem suspended_resume_prepare_fallback_w :
    step 4 4 suspDev fullBuf =
      .next fullBuf
        [.stateQuery .suspended, .resumeCall 0, .prepareCall 0] ∧
    hasWrite (resTrace (step 4 4 suspDev fullBuf)) = false :=
  (suspended_resume_prepare_fallback 4 4 suspDev fullBuf
    ⟨false, true, false⟩ rfl rfl rfl (by decide)).1 rfl

/-- C5: recovery from a classified Underrun or Suspended fault leaves the
pending cursor (offset and remaining count) and the staging buffer
contents unchanged: the iteration's resulting state is exactly the state
the iteration started from (after the ordinary start-of-iteration refill,
which only runs when the buffer was already fully drained, and which is
generation, not recovery).  After an underrun reported by the space query
(or by the state check), `snd_pcm_prepare` is called exactly once and no
write happens in that iteration.  The conjuncts cover every branch that
classifies an Underrun or Suspended fault, over the post-refill state of
the iteration: the state-check XRUN and SUSPENDED paths (resume
succeeding or falling back to prepare), the space-query `-EPIPE` path,
and the write-detected `-EPIPE` and `-ESTRPIPE` paths — in each, the
resulting state is exactly the post-refill state, cursor and buffer
untouched. -/
theorem recovery_preserves_staged_data (cap rate : Nat)
    (d : DevResponses) (s : LoopState) (revents : Revents)
    (hsel : d.selectRes = .ready revents) (hpo : revents.pollout = true)
    (hprep : 0 ≤ d.prepareRes) :
    (d.pcmState = .running → d.availRes = -EPIPE →
      step cap rate d s =
        .next (refillIfEmpty cap rate s).1
          ((refillIfEmpty cap rate s).2 ++
            [.stateQuery .running, .availQuery d.availRes,
             .prepareCall d.prepareRes]) ∧
      prepareCount (resTrace (step cap rate d s)) = 1 ∧
      hasWrite (resTrace (step cap rate d s)) = false) ∧
    (d.pcmState = .xrun →
      step cap rate d s =
        .next (refillIfEmpty cap rate s).1
          ((refillIfEmpty cap rate s).2 ++
            [.stateQuery .xrun, .prepareCall d.prepareRes]) ∧
      prepareCount (resTrace (step cap rate d s)) = 1 ∧
      hasWrite (resTrace (step cap rate d s)) = false) ∧
    (d.pcmState = .suspended → d.resumeRes ≤ 0 →
      step cap rate d s =
        .next (refillIfEmpty cap rate s).1
          ((refillIfEmpty cap rate s).2 ++
            [.stateQuery .suspended, .resumeCall d.resumeRes,
             .prepareCall d.prepareRes])) ∧
    (d.pcmState = .suspended → 0 < d.resumeRes →
      step cap rate d s =
        .next (refillIfEmpty cap rate s).1
          ((refillIfEmpty cap rate s).2 ++
            [.stateQuery .suspended, .resumeCall d.resumeRes])) ∧
    (d.pcmState = .running → 0 ≤ d.availRes →
      0 < min d.availRes (refillIfEmpty cap rate s).1.remaining →
      d.writeRes (min d.availRes (refillIfEmpty cap rate s).1.remaining) =
        -EPIPE →
      step cap rate d s =
        .next (refillIfEmpty cap rate s).1
          ((refillIfEmpty cap rate s).2 ++
            (wrTrace d (refillIfEmpty cap rate s).1 ++
              [.prepareCall d.prepareRes]))) ∧
    (d.pcmState = .running → 0 ≤ d.availRes →
      0 < min d.availRes (refillIfEmpty cap rate s).1.remaining →
      d.writeRes (min d.availRes (refillIfEmpty cap rate s).1.remaining) =
        -ESTRPIPE →
      d.resumeRes ≤ 0 →
      step cap rate d s =
        .next (refillIfEmpty cap rate s).1
          ((refillIfEmpty cap rate s).2 ++
            (wrTrace d (refillIfEmpty cap rate s).1 ++
              [.resumeCall d.resumeRes, .prepareCall d.prepareRes]))) ∧
    (d.pcmState = .running → 0 ≤ d.availRes →
      0 < min d.availRes (refillIfEmpty cap rate s).1.remaining →
      d.writeRes (min d.availRes (refillIfEmpty cap rate s).1.remaining) =
        -ESTRPIPE →
      0 < d.resumeRes →
      step cap rate d s =
        .next (refillIfEmpty cap rate s).1
          ((refillIfEmpty cap rate s).2 ++
            (wrTrace d (refillIfEmpty cap rate s).1 ++
              [.resumeCall d.resumeRes]))) ∧
    (s.remaining ≠ 0 → (refillIfEmpty cap rate s).1 = s) := by
  refine ⟨fun hst ha => ?_, fun hst => ?_, fun hst hres => ?_,
    fun hst hres => ?_, fun hst ha hn hwr => ?_,
    fun hst ha hn hwr hres => ?_, fun hst ha hn hwr hres => ?_,
    fun hrem => refill_not_drained_fst cap rate hrem⟩
  · have heq : step cap rate d s =
        .next (refillIfEmpty cap rate s).1
          ((refillIfEmpty cap rate s).2 ++
            [.stateQuery .running, .availQuery d.availRes,
             .prepareCall d.prepareRes]) := by
      rw [step_pollout hsel hpo,
        ow_avail_epipe (refillIfEmpty cap rate s).1 hst ha hprep]
    refine ⟨heq, ?_, ?_⟩
    · rw [heq]
      simp only [resTrace, prepareCount_append]
      rw [(refill_trace_calls cap rate s).2.2.2]
      rfl
    · rw [heq]
      simp only [resTrace, hasWrite_append]
      rw [(refill_trace_calls cap rate s).2.1]
      rfl
  · have heq : step cap rate d s =
        .next (refillIfEmpty cap rate s).1
          ((refillIfEmpty cap rate s).2 ++
            [.stateQuery .xrun, .prepareCall d.prepareRes]) := by
      rw [step_pollout hsel hpo,
        ow_xrun (refillIfEmpty cap rate s).1 hst hprep]
    refine ⟨heq, ?_, ?_⟩
    · rw [heq]
      simp only [resTrace, prepareCount_append]
      rw [(refill_trace_calls cap rate s).2.2.2]
      rfl
    · rw [heq]
      simp only [resTrace, hasWrite_append]
      rw [(refill_trace_calls cap rate s).2.1]
      rfl
  · rw [step_pollout hsel hpo,
      ow_susp_prepare (refillIfEmpty cap rate s).1 hst hres hprep]
  · rw [step_pollout hsel hpo,
      ow_susp_resume (refillIfEmpty cap rate s).1 hst hres]
  · rw [step_pollout hsel hpo,
      ow_write_epipe (refillIfEmpty cap rate s).1 hst ha hn hwr hprep]
    rfl
  · rw [step_pollout hsel hpo,
      ow_write_estrpipe_prepare (refillIfEmpty cap rate s).1 hst ha hn hwr
        hres hprep]
    rfl
  · rw [step_pollout hsel hpo,
      ow_write_estrpipe_resume (refillIfEmpty cap rate s).1 hst ha hn hwr
        hres]
    rfl

/-- C5 witness: underrun reported by the space query on a full buffer:
prepare called exactly once, no write, cursor and staged data intact. -/
theorem recovery_preserves_staged_data_w :
    step 4 4 availXrunDev fullBuf =
      .next fullBuf
        [.stateQuery .running, .availQuery (-EPIPE), .prepareCall 0] ∧
    prepareCount (resTrace (step 4 4 availXrunDev fullBuf)) = 1 ∧
    hasWrite (resTrace (step 4 4 availXrunDev fullBuf)) = false :=
  (recovery_preserves_staged_data 4 4 availXrunDev fullBuf
    ⟨false, true, false⟩ rfl rfl (by decide)).1 rfl rfl

/-- C7 witness: a concrete interrupted wait on a full buffer: the
iteration continues with the state intact and is not fatal. -/
theorem eintr_wait_retried_w :
    step 4 4 eintrDev fullBuf = .next fullBuf [] ∧
    isFatal (step 4 4 eintrDev fullBuf) = false :=
  ⟨(eintr_wait_retried 4 4 eintrDev fullBuf rfl).2.2 (by decide),
   (eintr_wait_retried 4 4 eintrDev fullBuf rfl).2.1⟩

/-- The trace of an iteration under POLLOUT readiness: the refill check's
events followed by the POLLOUT body's events. -/
lemma resTrace_step_pollout (cap rate : Nat) {d : DevResponses}
    (s : LoopState) {revents : Revents}
    (hsel : d.selectRes = .ready revents) (hpo : revents.pollout = true) :
    resTrace (step cap rate d s) =
      (refillIfEmpty cap rate s).2 ++
        resTrace (on_writable d (refillIfEmpty cap rate s).1) := by
  rw [step_pollout hsel hpo]
  cases on_writable d (refillIfEmpty cap rate s).1 <;> rfl

/-- When the loop is in the Normal state, the space query succeeded, and
`min(avail, remaining) > 0`, the POLLOUT body's trace is the write trace
(state check, space query, one write of exactly `min(avail, remaining)`
frames) followed by events none of which is a write. -/
lemma on_writable_write_shape {d : DevResponses} (s : LoopState)
    (hst : d.pcmState = .running) (ha : 0 ≤ d.availRes)
    (hn : 0 < min d.availRes s.remaining) :
    ∃ rest : List Ev,
      resTrace (on_writable d s) = wrTrace d s ++ rest ∧
      writeEvents rest = [] := by
  unfold on_writable
  simp only [hst]
  rw [if_neg (by decide), if_neg (by decide), if_neg (not_lt.mpr ha),
    if_pos hn]
  repeat' split
  all_goals first
    | exact ⟨[Ev.resumeCall d.resumeRes, Ev.prepareCall d.prepareRes],
        rfl, rfl⟩
    | exact ⟨[Ev.resumeCall d.resumeRes], rfl, rfl⟩
    | exact ⟨[Ev.prepareCall d.prepareRes], rfl, rfl⟩
    | exact ⟨[], rfl, rfl⟩

/-- C1: in a writable iteration with the device in the Normal state and a
successful space query, the iteration queries the available space and its
write calls are exactly one write requesting
`n = min(available_space, pending_remaining)` frames when `n > 0`, and
none otherwise; and the spec's end-to-end scenario (capacity 4, rate 4,
available-space sequence [2, 0, 2]) yields write(2) leaving 2 remaining,
a no-write iteration, write(2) draining the cursor to 0, and a refill on
the next iteration. -/
theorem writable_normal_write_sizing (cap rate : Nat) (d : DevResponses)
    (s : LoopState) (revents : Revents)
    (hsel : d.selectRes = .ready revents) (hpo : revents.pollout = true)
    (hst : d.pcmState = .running) (ha : 0 ≤ d.availRes) :
    Ev.availQuery d.availRes ∈ resTrace (step cap rate d s) ∧
    writeEvents (resTrace (step cap rate d s)) =
      (if 0 < min d.availRes (refillIfEmpty cap rate s).1.remaining then
        [Ev.writeCall
          (((refillIfEmpty cap rate s).1.bufPhases.drop
              (refillIfEmpty cap rate s).1.offset).take
            (min d.availRes (refillIfEmpty cap rate s).1.remaining).toNat)
          (min d.availRes (refillIfEmpty cap rate s).1.remaining)
          (d.writeRes
            (min d.availRes (refillIfEmpty cap rate s).1.remaining))]
       else []) ∧
    run 4 4 [healthy 2, healthy 0, healthy 2, healthy 0] initState =
      .next { bufPhases := [0, 1, 2, 3], offset := 0, remaining := 4,
              phase := 0 }
        [.refillEv 4, .stateQuery .running, .availQuery 2,
         .writeCall [0, 1] 2 2, .stateQuery .running, .availQuery 0,
         .stateQuery .running, .availQuery 2, .writeCall [2, 3] 2 2,
         .refillEv 4, .stateQuery .running, .availQuery 0] := by
  have htr := resTrace_step_pollout cap rate s hsel hpo
  by_cases hn : 0 < min d.availRes (refillIfEmpty cap rate s).1.remaining
  · obtain ⟨rest, hsh, hre⟩ :=
      on_writable_write_shape (refillIfEmpty cap rate s).1 hst ha hn
    refine ⟨?_, ?_, by decide⟩
    · rw [htr, hsh, wrTrace]
      simp
    · rw [htr, hsh, if_pos hn, writeEvents_append, writeEvents_append,
        (refill_trace_calls cap rate s).2.2.1, hre]
      simp [writeEvents, wrTrace, isWriteEv]
  · rw [htr, ow_no_write (refillIfEmpty cap rate s).1 hst ha hn]
    refine ⟨?_, ?_, by decide⟩
    · simp [resTrace]
    · rw [if_neg hn, writeEvents_append,
        (refill_trace_calls cap rate s).2.2.1]
      rfl

/-- C1 witness: a writable Normal iteration on the freshly refilled
buffer with 2 frames of space: the space query is in the trace and the
iteration's single write requests exactly 2 frames. -/
theorem writable_normal_write_sizing_w :
    Ev.availQuery 2 ∈ resTrace (step 4 4 (healthy 2) initState) ∧
    writeEvents (resTrace (step 4 4 (healthy 2) initState)) =
      [Ev.writeCall [0, 1] 2 2] ∧
    run 4 4 [healthy 2, healthy 0, healthy 2, healthy 0] initState =
      .next { bufPhases := [0, 1, 2, 3], offset := 0, remaining := 4,
              phase := 0 }
        [.refillEv 4, .stateQuery .running, .availQuery 2,
         .writeCall [0, 1] 2 2, .stateQuery .running, .availQuery 0,
         .stateQuery .running, .availQuery 2, .writeCall [2, 3] 2 2,
         .refillEv 4, .stateQuery .running, .availQuery 0] :=
  writable_normal_write_sizing 4 4 (healthy 2) initState
    ⟨false, true, false⟩ rfl rfl rfl (by decide)

/-- C3 counterexample: the device result code `-ESTRPIPE` is classified
differently at the two call sites.  Returned by the space query it takes
the unclassified branch and the loop exits fatally; returned by the write
call it is classified Suspended and recovered, the loop continuing.  So
the two sites do not classify outcomes identically. -/
theorem classification_not_identical_cex :
    step 4 4 availSuspDev fullBuf =
      .fatal (.availErr (-ESTRPIPE))
        [.stateQuery .running, .availQuery (-ESTRPIPE)] ∧
    step 4 4 writeSuspDev fullBuf =
      .next fullBuf
        [.stateQuery .running, .availQuery 4,
         .writeCall [0, 1, 2, 3] 4 (-ESTRPIPE), .resumeCall 1] ∧
    isFatal (step 4 4 availSuspDev fullBuf) = true ∧
    isFatal (step 4 4 writeSuspDev fullBuf) = false :=
  ⟨rfl, rfl, rfl, rfl⟩

/-- C3 amended: every device-session call outcome is classified into
exactly one of {success, Underrun, Fatal} at the space-query site and of
{success, Underrun, Suspended, Fatal} at the write site — a `-ESTRPIPE`
return from the space query itself is unclassified, hence fatal — and any
unclassified negative result code at either site terminates the loop
reporting that code, with no recovery call after the faulting call
(the fatal traces end at the faulting call).  The conjuncts cover the
whole classification table, over the post-refill state of the iteration:
space query fatal / Underrun / success (with the iteration then either
making no write or proceeding to exactly one write), and write success /
Underrun / Suspended (resume succeeding or falling back to prepare) /
fatal. -/
theorem classification_per_site (cap rate : Nat) (d : DevResponses)
    (s : LoopState) (revents : Revents)
    (hsel : d.selectRes = .ready revents) (hpo : revents.pollout = true)
    (hst : d.pcmState = .running) :
    (d.availRes < 0 → d.availRes ≠ -EPIPE →
      step cap rate d s =
        .fatal (.availErr d.availRes)
          ((refillIfEmpty cap rate s).2 ++
            [.stateQuery .running, .availQuery d.availRes])) ∧
    (d.availRes = -EPIPE → 0 ≤ d.prepareRes →
      step cap rate d s =
        .next (refillIfEmpty cap rate s).1
          ((refillIfEmpty cap rate s).2 ++
            [.stateQuery .running, .availQuery d.availRes,
             .prepareCall d.prepareRes])) ∧
    (0 ≤ d.availRes →
      ¬ 0 < min d.availRes (refillIfEmpty cap rate s).1.remaining →
      step cap rate d s =
        .next (refillIfEmpty cap rate s).1
          ((refillIfEmpty cap rate s).2 ++
            [.stateQuery .running, .availQuery d.availRes])) ∧
    (0 ≤ d.availRes →
      0 < min d.availRes (refillIfEmpty cap rate s).1.remaining →
      ∃ rest : List Ev,
        resTrace (step cap rate d s) =
          (refillIfEmpty cap rate s).2 ++
            (wrTrace d (refillIfEmpty cap rate s).1 ++ rest) ∧
        writeEvents rest = []) ∧
    (0 ≤ d.availRes →
      0 < min d.availRes (refillIfEmpty cap rate s).1.remaining →
      0 ≤ d.writeRes
        (min d.availRes (refillIfEmpty cap rate s).1.remaining) →
      step cap rate d s =
        .next { (refillIfEmpty cap rate s).1 with
                offset :=
                  (refillIfEmpty cap rate s).1.offset +
                    (d.writeRes (min d.availRes
                      (refillIfEmpty cap rate s).1.remaining)).toNat
                remaining :=
                  (refillIfEmpty cap rate s).1.remaining -
                    d.writeRes (min d.availRes
                      (refillIfEmpty cap rate s).1.remaining) }
          ((refillIfEmpty cap rate s).2 ++
            wrTrace d (refillIfEmpty cap rate s).1)) ∧
    (0 ≤ d.availRes →
      0 < min d.availRes (refillIfEmpty cap rate s).1.remaining →
      d.writeRes (min d.availRes (refillIfEmpty cap rate s).1.remaining) =
        -EPIPE →
      0 ≤ d.prepareRes →
      step cap rate d s =
        .next (refillIfEmpty cap rate s).1
          ((refillIfEmpty cap rate s).2 ++
            (wrTrace d (refillIfEmpty cap rate s).1 ++
              [.prepareCall d.prepareRes]))) ∧
    (0 ≤ d.availRes →
      0 < min d.availRes (refillIfEmpty cap rate s).1.remaining →
      d.writeRes (min d.availRes (refillIfEmpty cap rate s).1.remaining) =
        -ESTRPIPE →
      0 < d.resumeRes →
      step cap rate d s =
        .next (refillIfEmpty cap rate s).1
          ((refillIfEmpty cap rate s).2 ++
            (wrTrace d (refillIfEmpty cap rate s).1 ++
              [.resumeCall d.resumeRes]))) ∧
    (0 ≤ d.availRes →
      0 < min d.availRes (refillIfEmpty cap rate s).1.remaining →
      d.writeRes (min d.availRes (refillIfEmpty cap rate s).1.remaining) =
        -ESTRPIPE →
      d.resumeRes ≤ 0 → 0 ≤ d.prepareRes →
      step cap rate d s =
        .next (refillIfEmpty cap rate s).1
          ((refillIfEmpty cap rate s).2 ++
            (wrTrace d (refillIfEmpty cap rate s).1 ++
              [.resumeCall d.resumeRes, .prepareCall d.prepareRes]))) ∧
    (0 ≤ d.availRes →
      0 < min d.availRes (refillIfEmpty cap rate s).1.remaining →
      d.writeRes (min d.availRes (refillIfEmpty cap rate s).1.remaining) <
        0 →
      d.writeRes (min d.availRes (refillIfEmpty cap rate s).1.remaining) ≠
        -EPIPE →
      d.writeRes (min d.availRes (refillIfEmpty cap rate s).1.remaining) ≠
        -ESTRPIPE →
      step cap rate d s =
        .fatal
          (.writeErr (d.writeRes
            (min d.availRes (refillIfEmpty cap rate s).1.remaining)))
          ((refillIfEmpty cap rate s).2 ++
            wrTrace d (refillIfEmpty cap rate s).1)) := by
  refine ⟨fun h1 h2 => ?_, fun h1 h2 => ?_, fun h1 h2 => ?_,
    fun h1 h2 => ?_, fun h1 h2 h3 => ?_, fun h1 h2 h3 h4 => ?_,
    fun h1 h2 h3 h4 => ?_, fun h1 h2 h3 h4 h5 => ?_,
    fun h1 h2 h3 h4 h5 => ?_⟩
  · rw [step_pollout hsel hpo,
      ow_avail_fatal (refillIfEmpty cap rate s).1 hst h1 h2]
  · rw [step_pollout hsel hpo,
      ow_avail_epipe (refillIfEmpty cap rate s).1 hst h1 h2]
  · rw [step_pollout hsel hpo,
      ow_no_write (refillIfEmpty cap rate s).1 hst h1 h2]
  · obtain ⟨rest, hsh, hre⟩ :=
      on_writable_write_shape (refillIfEmpty cap rate s).1 hst h1 h2
    exact ⟨rest,
      by rw [resTrace_step_pollout cap rate s hsel hpo, hsh], hre⟩
  · rw [step_pollout hsel hpo,
      ow_write_ok (refillIfEmpty cap rate s).1 hst h1 h2 h3]
    rfl
  · rw [step_pollout hsel hpo,
      ow_write_epipe (refillIfEmpty cap rate s).1 hst h1 h2 h3 h4]
    rfl
  · rw [step_pollout hsel hpo,
      ow_write_estrpipe_resume (refillIfEmpty cap rate s).1 hst h1 h2 h3
        h4]
    rfl
  · rw [step_pollout hsel hpo,
      ow_write_estrpipe_prepare (refillIfEmpty cap rate s).1 hst h1 h2 h3
        h4 h5]
    rfl
  · rw [step_pollout hsel hpo,
      ow_write_fatal (refillIfEmpty cap rate s).1 hst h1 h2 h3 h4 h5]
    rfl

/-- C3 amended witness: an unclassified negative write result (`-EIO`)
terminates the loop reporting that code, the trace ending at the faulting
write. -/
theorem classification_per_site_w :
    step 4 4 badWriteDev fullBuf =
      .fatal (.writeErr (-5))
        [.stateQuery .running, .availQuery 4,
         .writeCall [0, 1, 2, 3] 4 (-5)] :=
  (classification_per_site 4 4 badWriteDev fullBuf ⟨false, true, false⟩
      rfl rfl rfl).2.2.2.2.2.2.2.2 (by decide) (by decide) (by decide)
    (by decide) (by decide)

/-- C10 counterexample: with the staging buffer drained, an iteration
whose readiness result has no writable event still changes the pending
cursor and the staging buffer — the unconditional start-of-iteration
refill runs, resetting the cursor to a full, freshly generated buffer —
so "cursor and buffer left unchanged" fails as stated. -/
theorem nonwritable_iteration_refill_cex :
    step 4 4 idleDev initState =
      .next { bufPhases := [0, 1, 2, 3], offset := 0, remaining := 4,
              phase := 0 } [.refillEv 4] ∧
    ({ bufPhases := [0, 1, 2, 3], offset := 0, remaining := 4, phase := 0 }
        : LoopState) ≠ initState :=
  ⟨rfl, by decide⟩

/-- C10 amended: an iteration whose readiness result lacks the writable
event attempts no device write; apart from the start-of-iteration refill
(which runs exactly when the remaining count is zero), the pending cursor
and the staging buffer are left unchanged — with a non-drained buffer the
state is exactly preserved and the trace is empty. -/
theorem nonwritable_iteration_no_write (cap rate : Nat)
    (d : DevResponses) (s : LoopState) (revents : Revents)
    (hsel : d.selectRes = .ready revents) (hpo : revents.pollout = false) :
    step cap rate d s =
      .next (refillIfEmpty cap rate s).1 (refillIfEmpty cap rate s).2 ∧
    hasWrite (resTrace (step cap rate d s)) = false ∧
    (s.remaining ≠ 0 → step cap rate d s = .next s []) := by
  refine ⟨step_no_pollout hsel hpo, ?_, fun hne => ?_⟩
  · rw [step_no_pollout hsel hpo]
    exact (refill_trace_calls cap rate s).2.1
  · rw [step_no_pollout hsel hpo, refill_not_drained_fst cap rate hne,
      refill_not_drained_snd cap rate hne]

/-- C10 amended witness: a non-writable iteration on a non-drained buffer
leaves the state untouched and performs no write. -/
theorem nonwritable_iteration_no_write_w :
    step 4 4 idleDev fullBuf = .next fullBuf [] ∧
    hasWrite (resTrace (step 4 4 idleDev fullBuf)) = false :=
  ⟨(nonwritable_iteration_no_write 4 4 idleDev fullBuf
      ⟨false, false, false⟩ rfl rfl).2.2 (by decide),
   (nonwritable_iteration_no_write 4 4 idleDev fullBuf
      ⟨false, false, false⟩ rfl rfl).2.1⟩

end Alsa
